import Mathlib

/-!
# Verification of the ExecutableUpdaterCPP auto-updater

A shallow embedding of `src/Updater/Updater.h` (class `AutoUpdater` and the
free functions `checkForUpdates` / `Updated`).  External effects — the WinINet
download calls, file creation/deletion, the executable-path lookup, script
creation and process exit — are modelled by an environment `Env` that fixes
the outcome of each external operation, together with an event trace recording
the observable actions the code performs.
-/

namespace ExecutableUpdater

/-- A JSON value as far as the updater observes it: either a string
(`get<std::string>` succeeds) or some other value (`get<std::string>` throws). -/
inductive JsonVal
  | str : String → JsonVal
  | other : JsonVal
deriving DecidableEq, Repr

/-- A parsed `nlohmann::json` object, as far as the updater observes it:
a finite key/value map.  A default-constructed (null) json is `⟨[]⟩`. -/
structure Json where
  entries : List (String × JsonVal)
deriving DecidableEq, Repr

/-- The default-constructed `nlohmann::json` (null / empty). -/
def Json.empty : Json := ⟨[]⟩

/-- `json::empty()`. -/
def Json.isEmpty (j : Json) : Bool := j.entries.isEmpty

/-- `json::contains(key)`. -/
def Json.contains (j : Json) (k : String) : Bool := j.entries.any (fun p => p.1 == k)

/-- `json[key].get<std::string>()`: `some s` when the key is present with a
string value, `none` when the lookup/conversion throws. -/
def Json.getString (j : Json) (k : String) : Option String :=
  match j.entries.find? (fun p => p.1 == k) with
  | some (_, JsonVal.str s) => some s
  | _ => none

/-- One iteration of the `InternetReadFile` loop in `downloadFile`:
either the read succeeds with a byte count and the subsequent
`file.write` succeeds or fails, or the read itself fails. -/
inductive ReadEv
  | chunk : Nat → Bool → ReadEv
  | readFail : ReadEv
deriving DecidableEq, Repr

/-- Environment for one `downloadFile` call: whether `InternetOpenA`,
`InternetOpenUrlA` and the `std::ofstream` open succeed, and the read/write
outcomes of the transfer loop. -/
structure DlOutcome where
  internetOpenOk : Bool
  openUrlOk : Bool
  fileOpenOk : Bool
  reads : List ReadEv
deriving DecidableEq, Repr

/-- The `while (InternetReadFile(...) && bytesRead > 0)` loop of
`downloadFile`.  The loop exits with `success == true` when the read stream
ends (list exhausted), a read returns `false`, or a read returns zero bytes;
`success` becomes `false` only when a `file.write` fails. -/
def runReads : List ReadEv → Bool
  | [] => true
  | ReadEv.readFail :: _ => true
  | ReadEv.chunk 0 _ :: _ => true
  | ReadEv.chunk (_+1) w :: rest => if w then runReads rest else false

/-- Return value of `AutoUpdater::downloadFile` in environment `d`. -/
def dlResult (d : DlOutcome) : Bool :=
  if !d.internetOpenOk then false
  else if !d.openUrlOk then false
  else if !d.fileOpenOk then false
  else runReads d.reads

/-- Total bytes successfully transferred by the `downloadFile` loop. -/
def dlBytes : List ReadEv → Nat
  | [] => 0
  | ReadEv.readFail :: _ => 0
  | ReadEv.chunk 0 _ :: _ => 0
  | ReadEv.chunk (n+1) w :: rest => if w then (n+1) + dlBytes rest else 0

/-- Observable external actions of the updater. -/
inductive Event
  | downloadAttempt : String → String → Event
  | fileDeleted : String → Event
  | scriptWritten : String → String → Event
  | scriptLaunched : String → Event
deriving DecidableEq, Repr

/-- `AutoUpdater::downloadFile(url, filepath)`: returns its success flag and
records the download attempt. -/
def downloadFile (d : DlOutcome) (url filepath : String) : Bool × List Event :=
  (dlResult d, [Event.downloadAttempt url filepath])

/-- Environment for one `checkForUpdate` call: the metadata download outcome,
the metadata parse outcome (`none` models a parse exception or unopened file,
leaving the default json), the payload download outcome, the result of
`GetModuleFileNameA` (`none` models failure, which throws), and whether the
batch-script `std::ofstream` opens. -/
structure Env where
  metaDl : DlOutcome
  metaParse : Option Json
  payloadDl : DlOutcome
  exePath : Option String
  batchOpenOk : Bool
deriving DecidableEq, Repr

/-- `AutoUpdater::fetchVersionInfo(jsonUrl)`: downloads the metadata to
`<tempdir>\version_info.json`; on download failure returns the empty json
without deleting anything; otherwise parses (exceptions leave the empty json)
and always deletes the temporary file afterwards. -/
def fetchVersionInfo (td : String) (env : Env) (jsonUrl : String) : Json × List Event :=
  let tempFile := td ++ "\\version_info.json"
  let dl := downloadFile env.metaDl jsonUrl tempFile
  if !dl.1 then
    (Json.empty, dl.2)
  else
    (env.metaParse.getD Json.empty, dl.2 ++ [Event.fileDeleted tempFile])

/-- `AutoUpdater::extractFileName`: `find_last_of("\\/")` followed by
`substr(pos + 1)`; returns the path after the last separator in the list,
`none` when no separator occurs. -/
def dropThroughLastSep : List Char → Option (List Char)
  | [] => none
  | c :: rest =>
    match dropThroughLastSep rest with
    | some r => some r
    | none => if c = '\\' ∨ c = '/' then some rest else none

/-- `AutoUpdater::extractFileName(fullPath)`. -/
def extractFileName (fullPath : String) : String :=
  match dropThroughLastSep fullPath.data with
  | some r => String.mk r
  | none => fullPath

/-- The lines `AutoUpdater::executeUpdate` streams into the batch file,
verbatim from the source. -/
def batchScriptLines (newExePath currentExePath : String) : List String :=
  ["@echo off",
   "title Application Updater",
   "echo Applying update...",
   "timeout /t 3 /nobreak >nul",
   "taskkill /f /im \"" ++ extractFileName currentExePath ++ "\" >nul 2>&1",
   "timeout /t 1 /nobreak >nul",
   "copy /Y \"" ++ newExePath ++ "\" \"" ++ currentExePath ++ "\" >nul",
   "if errorlevel 1 (",
   "    echo Update failed!",
   "    pause",
   "    exit /b 1",
   ")",
   "echo Update completed successfully!",
   "start \"\" \"" ++ currentExePath ++ "\"",
   "timeout /t 2 /nobreak >nul",
   "del \"" ++ newExePath ++ "\" >nul 2>&1",
   "del \"%~f0\" >nul 2>&1"]

/-- The full batch-script text written by `executeUpdate`. -/
def batchScript (newExePath currentExePath : String) : String :=
  String.join ((batchScriptLines newExePath currentExePath).map (fun l => l ++ "\n"))

/-- `AutoUpdater::executeUpdate(newExePath, currentExePath)`: throws
(`Except.error`) when the batch file cannot be created; otherwise writes the
script, launches it via `ShellExecuteA`, and calls `ExitProcess(0)` — it never
returns normally, so `Except.ok` carries only the emitted events. -/
def executeUpdate (td : String) (batchOpenOk : Bool) (newExePath currentExePath : String) :
    Except String (List Event) :=
  let batchPath := td ++ "\\updater_script.bat"
  if !batchOpenOk then
    Except.error "Failed to create update script"
  else
    Except.ok [Event.scriptWritten batchPath (batchScript newExePath currentExePath),
               Event.scriptLaunched batchPath]

/-- `AutoUpdater::isNewerVersion(current, remote)`: plain string inequality. -/
def isNewerVersion (current remote : String) : Bool := current != remote

/-- The private fields of class `AutoUpdater`. -/
structure Updater where
  m_updateUrl : String
  m_currentVersion : String
  m_tempDirectory : String
deriving DecidableEq, Repr

/-- How a call to `checkForUpdate` ends: a normal `return b`, or process
termination via `ExitProcess(0)` inside `executeUpdate`. -/
inductive Outcome
  | ret : Bool → Outcome
  | exit0 : Outcome
deriving DecidableEq, Repr

/-- Result of one `checkForUpdate` call: the object state after the call, how
the call ended, and the trace of external actions. -/
structure CheckResult where
  updater : Updater
  outcome : Outcome
  events : List Event
deriving DecidableEq, Repr

/-- `AutoUpdater::checkForUpdate(currentVersion)`. -/
def checkForUpdate (u0 : Updater) (env : Env) (currentVersion : String) : CheckResult :=
  let u := { u0 with m_currentVersion := currentVersion }
  let fetched := fetchVersionInfo u.m_tempDirectory env u.m_updateUrl
  let versionInfo := fetched.1
  let ev1 := fetched.2
  if versionInfo.isEmpty || !versionInfo.contains "AppVersion"
      || !versionInfo.contains "UpdateLink" then
    ⟨u, Outcome.ret false, ev1⟩
  else
    match versionInfo.getString "AppVersion", versionInfo.getString "UpdateLink" with
    | some remoteVersion, some updateLink =>
      if !isNewerVersion u.m_currentVersion remoteVersion then
        ⟨u, Outcome.ret false, ev1⟩
      else
        let updateFilePath := u.m_tempDirectory ++ "\\app_update.exe"
        let dl := downloadFile env.payloadDl updateLink updateFilePath
        if !dl.1 then
          ⟨u, Outcome.ret false, ev1 ++ dl.2⟩
        else
          match env.exePath with
          | none => ⟨u, Outcome.ret false, ev1 ++ dl.2⟩
          | some exePath =>
            match executeUpdate u.m_tempDirectory env.batchOpenOk updateFilePath exePath with
            | Except.error _ => ⟨u, Outcome.ret false, ev1 ++ dl.2⟩
            | Except.ok ev3 => ⟨u, Outcome.exit0, ev1 ++ dl.2 ++ ev3⟩
    | _, _ => ⟨u, Outcome.ret false, ev1⟩

/-- The build-time constant `AUTO_UPDATER_CONFIG_URL`. -/
def AUTO_UPDATER_CONFIG_URL : String := "https://pastebin.com/raw/XXXXXXXX"

/-- The constructor's temp-directory normalisation: `GetTempPathA` result with
one trailing backslash removed when present. -/
def mkTempDirectory (tempPath : String) : String :=
  if tempPath.data.getLast? = some '\\' then String.mk tempPath.data.dropLast
  else tempPath

/-- The `AutoUpdater(updateUrl)` constructor with `GetTempPathA` returning
`tempPath`. -/
def mkUpdater (updateUrl tempPath : String) : Updater :=
  ⟨updateUrl, "", mkTempDirectory tempPath⟩

/-- Environment for the free function `checkForUpdates`: the `GetTempPathA`
result (`none` models failure, which makes the constructor throw) and the
environment for the inner `checkForUpdate` call. -/
structure TopEnv where
  tempPath : Option String
  env : Env
deriving DecidableEq, Repr

/-- The free function `checkForUpdates(version, configUrl = "")`: picks the
build-time constant when `configUrl` is empty, constructs a fresh updater and
delegates; a constructor exception is caught and yields `false`. -/
def checkForUpdates (tenv : TopEnv) (version configUrl : String) : Outcome × List Event :=
  match tenv.tempPath with
  | none => (Outcome.ret false, [])
  | some tp =>
    let url := if configUrl == "" then AUTO_UPDATER_CONFIG_URL else configUrl
    let r := checkForUpdate (mkUpdater url tp) tenv.env version
    (r.outcome, r.events)

/-- The legacy wrapper `Updated(version)`. -/
def Updated (tenv : TopEnv) (version : String) : Outcome × List Event :=
  checkForUpdates tenv version ""

/-- Whether a trace contains a download attempt targeting the payload path
`<tempdir>\app_update.exe`. -/
def attemptsPayload (td : String) (evs : List Event) : Bool :=
  evs.any fun e =>
    match e with
    | Event.downloadAttempt _ p => p == td ++ "\\app_update.exe"
    | _ => false

/-- Whether a trace contains a script-creation event. -/
def producesScript (evs : List Event) : Bool :=
  evs.any fun e =>
    match e with
    | Event.scriptWritten _ _ => true
    | _ => false

/-- The json value `checkForUpdate` inspects after the metadata fetch. -/
def fetchedJson (td : String) (env : Env) (url : String) : Json :=
  (fetchVersionInfo td env url).1

/-! ## Concrete fixtures used by witnesses and counterexamples -/

/-- A download in which every external call succeeds and one 100-byte chunk
is transferred. -/
def dlOK : DlOutcome := ⟨true, true, true, [ReadEv.chunk 100 true]⟩

/-- A download in which `InternetOpenA` fails. -/
def dlBad : DlOutcome := ⟨false, true, true, []⟩

/-- A download in which every external call succeeds but the body is empty:
the first `InternetReadFile` reports zero bytes. -/
def dlZero : DlOutcome := ⟨true, true, true, []⟩

/-- A well-formed metadata document advertising version 2.0. -/
def jGood : Json := ⟨[("AppVersion", JsonVal.str "2.0"), ("UpdateLink", JsonVal.str "http://x/a.exe")]⟩

/-- An updater configured with a metadata URL and temp directory. -/
def uX : Updater := ⟨"http://cfg/v.json", "", "C:\\Tmp"⟩

/-- Everything succeeds. -/
def envGood : Env := ⟨dlOK, some jGood, dlOK, some "C:\\app.exe", true⟩

/-- The metadata download fails. -/
def envMetaFail : Env := ⟨dlBad, none, dlOK, some "C:\\app.exe", true⟩

/-- Metadata fetch succeeds but the payload download fails. -/
def envDlFail : Env := ⟨dlOK, some jGood, dlBad, some "C:\\app.exe", true⟩

/-- Payload download succeeds but the batch script cannot be created. -/
def envNoScript : Env := ⟨dlOK, some jGood, dlOK, some "C:\\app.exe", false⟩

/-- Payload download succeeds with a zero-byte body. -/
def envZero : Env := ⟨dlOK, some jGood, dlZero, some "C:\\app.exe", true⟩

/-- `checkForUpdates` environment whose constructor succeeds (with a
trailing-backslash temp path) and whose metadata download fails, keeping the
trace to the single fetch attempt. -/
def tenvX : TopEnv := ⟨some "C:\\Tmp\\", envMetaFail⟩

end ExecutableUpdater

namespace ExecutableUpdater

/-! ## Helper lemmas -/

theorem String.data_append (a b : String) : (a ++ b).data = a.data ++ b.data := by
  cases a; cases b; rfl

theorem string_append_left_cancel {td a b : String} (h : td ++ a = td ++ b) : a = b := by
  cases td; cases a; cases b
  simp only [String.ext_iff, String.data_append] at h ⊢
  exact List.append_cancel_left h

theorem Json.contains_of_getString {j : Json} {k s : String}
    (h : j.getString k = some s) : j.contains k = true := by
  unfold Json.getString at h
  unfold Json.contains
  cases hf : j.entries.find? (fun p => p.1 == k) with
  | none => rw [hf] at h; exact absurd h (by simp)
  | some q =>
    have hmem := List.mem_of_find?_eq_some hf
    have hp := List.find?_some hf
    exact List.any_eq_true.mpr ⟨q, hmem, hp⟩

theorem Json.not_isEmpty_of_contains {j : Json} {k : String}
    (h : j.contains k = true) : j.isEmpty = false := by
  unfold Json.contains at h
  unfold Json.isEmpty
  rcases List.any_eq_true.mp h with ⟨q, hq, -⟩
  cases he : j.entries with
  | nil => rw [he] at hq; exact absurd hq (List.not_mem_nil q)
  | cons a l => rfl

end ExecutableUpdater

namespace ExecutableUpdater

/-! ## Run characterisations of `checkForUpdate` -/

theorem fetchVersionInfo_fail {td : String} {env : Env} {url : String}
    (h : dlResult env.metaDl = false) :
    fetchVersionInfo td env url =
      (Json.empty, [Event.downloadAttempt url (td ++ "\\version_info.json")]) := by
  simp [fetchVersionInfo, downloadFile, h]

theorem fetchVersionInfo_ok {td : String} {env : Env} {url : String}
    (h : dlResult env.metaDl = true) :
    fetchVersionInfo td env url =
      (env.metaParse.getD Json.empty,
       [Event.downloadAttempt url (td ++ "\\version_info.json"),
        Event.fileDeleted (td ++ "\\version_info.json")]) := by
  simp [fetchVersionInfo, downloadFile, h]

theorem checkForUpdate_guard_fail {u : Updater} {env : Env} {v : String}
    (h : (fetchedJson u.m_tempDirectory env u.m_updateUrl).isEmpty = true ∨
         (fetchedJson u.m_tempDirectory env u.m_updateUrl).contains "AppVersion" = false ∨
         (fetchedJson u.m_tempDirectory env u.m_updateUrl).contains "UpdateLink" = false) :
    checkForUpdate u env v =
      ⟨{ u with m_currentVersion := v }, Outcome.ret false,
       (fetchVersionInfo u.m_tempDirectory env u.m_updateUrl).2⟩ := by
  have hg : ((fetchedJson u.m_tempDirectory env u.m_updateUrl).isEmpty
      || !(fetchedJson u.m_tempDirectory env u.m_updateUrl).contains "AppVersion"
      || !(fetchedJson u.m_tempDirectory env u.m_updateUrl).contains "UpdateLink") = true := by
    rcases h with h | h | h <;> simp [h]
  unfold checkForUpdate
  unfold fetchedJson at hg
  simp only [hg, if_true]

end ExecutableUpdater

namespace ExecutableUpdater

theorem checkForUpdate_get_fail {u : Updater} {env : Env} {v : String}
    (hne : (fetchedJson u.m_tempDirectory env u.m_updateUrl).isEmpty = false)
    (hcA : (fetchedJson u.m_tempDirectory env u.m_updateUrl).contains "AppVersion" = true)
    (hcU : (fetchedJson u.m_tempDirectory env u.m_updateUrl).contains "UpdateLink" = true)
    (h : (fetchedJson u.m_tempDirectory env u.m_updateUrl).getString "AppVersion" = none ∨
         (fetchedJson u.m_tempDirectory env u.m_updateUrl).getString "UpdateLink" = none) :
    checkForUpdate u env v =
      ⟨{ u with m_currentVersion := v }, Outcome.ret false,
       (fetchVersionInfo u.m_tempDirectory env u.m_updateUrl).2⟩ := by
  unfold checkForUpdate
  unfold fetchedJson at hne hcA hcU h
  simp only [hne, hcA, hcU, Bool.not_true, Bool.or_false, Bool.false_or, if_false]
  rcases h with h | h
  · simp [h]
  · rcases hU : (fetchVersionInfo u.m_tempDirectory env u.m_updateUrl).1.getString "AppVersion"
      with _ | s <;> simp [h, hU]

theorem checkForUpdate_upToDate {u : Updater} {env : Env} {v rv ul : String}
    (hA : (fetchedJson u.m_tempDirectory env u.m_updateUrl).getString "AppVersion" = some rv)
    (hU : (fetchedJson u.m_tempDirectory env u.m_updateUrl).getString "UpdateLink" = some ul)
    (heq : v = rv) :
    checkForUpdate u env v =
      ⟨{ u with m_currentVersion := v }, Outcome.ret false,
       (fetchVersionInfo u.m_tempDirectory env u.m_updateUrl).2⟩ := by
  have hcA := Json.contains_of_getString hA
  have hcU := Json.contains_of_getString hU
  have hne := Json.not_isEmpty_of_contains hcA
  unfold checkForUpdate
  unfold fetchedJson at hA hU hcA hcU hne
  simp only [hne, hcA, hcU, Bool.not_true, Bool.or_false, Bool.false_or, if_false, hA, hU]
  simp [isNewerVersion, heq]

theorem checkForUpdate_dl_fail {u : Updater} {env : Env} {v rv ul : String}
    (hA : (fetchedJson u.m_tempDirectory env u.m_updateUrl).getString "AppVersion" = some rv)
    (hU : (fetchedJson u.m_tempDirectory env u.m_updateUrl).getString "UpdateLink" = some ul)
    (hneq : v ≠ rv)
    (hdl : dlResult env.payloadDl = false) :
    checkForUpdate u env v =
      ⟨{ u with m_currentVersion := v }, Outcome.ret false,
       (fetchVersionInfo u.m_tempDirectory env u.m_updateUrl).2 ++
         [Event.downloadAttempt ul (u.m_tempDirectory ++ "\\app_update.exe")]⟩ := by
  have hcA := Json.contains_of_getString hA
  have hcU := Json.contains_of_getString hU
  have hne := Json.not_isEmpty_of_contains hcA
  unfold checkForUpdate
  unfold fetchedJson at hA hU hcA hcU hne
  simp only [hne, hcA, hcU, Bool.not_true, Bool.or_false, Bool.false_or, if_false, hA, hU]
  simp [isNewerVersion, hneq, downloadFile, hdl]

theorem checkForUpdate_exe_fail {u : Updater} {env : Env} {v rv ul : String}
    (hA : (fetchedJson u.m_tempDirectory env u.m_updateUrl).getString "AppVersion" = some rv)
    (hU : (fetchedJson u.m_tempDirectory env u.m_updateUrl).getString "UpdateLink" = some ul)
    (hneq : v ≠ rv)
    (hdl : dlResult env.payloadDl = true)
    (hexe : env.exePath = none) :
    checkForUpdate u env v =
      ⟨{ u with m_currentVersion := v }, Outcome.ret false,
       (fetchVersionInfo u.m_tempDirectory env u.m_updateUrl).2 ++
         [Event.downloadAttempt ul (u.m_tempDirectory ++ "\\app_update.exe")]⟩ := by
  have hcA := Json.contains_of_getString hA
  have hcU := Json.contains_of_getString hU
  have hne := Json.not_isEmpty_of_contains hcA
  unfold checkForUpdate
  unfold fetchedJson at hA hU hcA hcU hne
  simp only [hne, hcA, hcU, Bool.not_true, Bool.or_false, Bool.false_or, if_false, hA, hU]
  simp [isNewerVersion, hneq, downloadFile, hdl, hexe]

theorem checkForUpdate_script_fail {u : Updater} {env : Env} {v rv ul p : String}
    (hA : (fetchedJson u.m_tempDirectory env u.m_updateUrl).getString "AppVersion" = some rv)
    (hU : (fetchedJson u.m_tempDirectory env u.m_updateUrl).getString "UpdateLink" = some ul)
    (hneq : v ≠ rv)
    (hdl : dlResult env.payloadDl = true)
    (hexe : env.exePath = some p)
    (hbatch : env.batchOpenOk = false) :
    checkForUpdate u env v =
      ⟨{ u with m_currentVersion := v }, Outcome.ret false,
       (fetchVersionInfo u.m_tempDirectory env u.m_updateUrl).2 ++
         [Event.downloadAttempt ul (u.m_tempDirectory ++ "\\app_update.exe")]⟩ := by
  have hcA := Json.contains_of_getString hA
  have hcU := Json.contains_of_getString hU
  have hne := Json.not_isEmpty_of_contains hcA
  unfold checkForUpdate
  unfold fetchedJson at hA hU hcA hcU hne
  simp only [hne, hcA, hcU, Bool.not_true, Bool.or_false, Bool.false_or, if_false, hA, hU]
  simp [isNewerVersion, hneq, downloadFile, hdl, hexe, executeUpdate, hbatch]

theorem checkForUpdate_success {u : Updater} {env : Env} {v rv ul p : String}
    (hA : (fetchedJson u.m_tempDirectory env u.m_updateUrl).getString "AppVersion" = some rv)
    (hU : (fetchedJson u.m_tempDirectory env u.m_updateUrl).getString "UpdateLink" = some ul)
    (hneq : v ≠ rv)
    (hdl : dlResult env.payloadDl = true)
    (hexe : env.exePath = some p)
    (hbatch : env.batchOpenOk = true) :
    checkForUpdate u env v =
      ⟨{ u with m_currentVersion := v }, Outcome.exit0,
       (fetchVersionInfo u.m_tempDirectory env u.m_updateUrl).2 ++
         [Event.downloadAttempt ul (u.m_tempDirectory ++ "\\app_update.exe")] ++
         [Event.scriptWritten (u.m_tempDirectory ++ "\\updater_script.bat")
            (batchScript (u.m_tempDirectory ++ "\\app_update.exe") p),
          Event.scriptLaunched (u.m_tempDirectory ++ "\\updater_script.bat")]⟩ := by
  have hcA := Json.contains_of_getString hA
  have hcU := Json.contains_of_getString hU
  have hne := Json.not_isEmpty_of_contains hcA
  unfold checkForUpdate
  unfold fetchedJson at hA hU hcA hcU hne
  simp only [hne, hcA, hcU, Bool.not_true, Bool.or_false, Bool.false_or, if_false, hA, hU]
  simp [isNewerVersion, hneq, downloadFile, hdl, hexe, executeUpdate, hbatch]

end ExecutableUpdater

namespace ExecutableUpdater

/-- Exhaustive characterisation of a `checkForUpdate` run: the object state
after the call, and the possible outcome/event-trace shapes. -/
theorem checkForUpdate_shape (u : Updater) (env : Env) (v : String) :
    (checkForUpdate u env v).updater = { u with m_currentVersion := v } ∧
    ((checkForUpdate u env v).outcome = Outcome.ret false ∧
        ((checkForUpdate u env v).events =
            (fetchVersionInfo u.m_tempDirectory env u.m_updateUrl).2 ∨
         ∃ ul, (checkForUpdate u env v).events =
            (fetchVersionInfo u.m_tempDirectory env u.m_updateUrl).2 ++
              [Event.downloadAttempt ul (u.m_tempDirectory ++ "\\app_update.exe")]) ∨
     (checkForUpdate u env v).outcome = Outcome.exit0 ∧
        ∃ ul p, (checkForUpdate u env v).events =
            (fetchVersionInfo u.m_tempDirectory env u.m_updateUrl).2 ++
              [Event.downloadAttempt ul (u.m_tempDirectory ++ "\\app_update.exe")] ++
              [Event.scriptWritten (u.m_tempDirectory ++ "\\updater_script.bat")
                 (batchScript (u.m_tempDirectory ++ "\\app_update.exe") p),
               Event.scriptLaunched (u.m_tempDirectory ++ "\\updater_script.bat")]) := by
  cases hg1 : (fetchedJson u.m_tempDirectory env u.m_updateUrl).isEmpty with
  | true =>
    rw [checkForUpdate_guard_fail (Or.inl hg1)]
    exact ⟨rfl, Or.inl ⟨rfl, Or.inl rfl⟩⟩
  | false =>
  cases hg2 : (fetchedJson u.m_tempDirectory env u.m_updateUrl).contains "AppVersion" with
  | false =>
    rw [checkForUpdate_guard_fail (Or.inr (Or.inl hg2))]
    exact ⟨rfl, Or.inl ⟨rfl, Or.inl rfl⟩⟩
  | true =>
  cases hg3 : (fetchedJson u.m_tempDirectory env u.m_updateUrl).contains "UpdateLink" with
  | false =>
    rw [checkForUpdate_guard_fail (Or.inr (Or.inr hg3))]
    exact ⟨rfl, Or.inl ⟨rfl, Or.inl rfl⟩⟩
  | true =>
  cases hA : (fetchedJson u.m_tempDirectory env u.m_updateUrl).getString "AppVersion" with
  | none =>
    rw [checkForUpdate_get_fail hg1 hg2 hg3 (Or.inl hA)]
    exact ⟨rfl, Or.inl ⟨rfl, Or.inl rfl⟩⟩
  | some rv =>
  cases hU : (fetchedJson u.m_tempDirectory env u.m_updateUrl).getString "UpdateLink" with
  | none =>
    rw [checkForUpdate_get_fail hg1 hg2 hg3 (Or.inr hU)]
    exact ⟨rfl, Or.inl ⟨rfl, Or.inl rfl⟩⟩
  | some ul =>
  by_cases hv : v = rv
  · rw [checkForUpdate_upToDate hA hU hv]
    exact ⟨rfl, Or.inl ⟨rfl, Or.inl rfl⟩⟩
  · cases hdl : dlResult env.payloadDl with
    | false =>
      rw [checkForUpdate_dl_fail hA hU hv hdl]
      exact ⟨rfl, Or.inl ⟨rfl, Or.inr ⟨ul, rfl⟩⟩⟩
    | true =>
    cases hexe : env.exePath with
    | none =>
      rw [checkForUpdate_exe_fail hA hU hv hdl hexe]
      exact ⟨rfl, Or.inl ⟨rfl, Or.inr ⟨ul, rfl⟩⟩⟩
    | some p =>
    cases hb : env.batchOpenOk with
    | false =>
      rw [checkForUpdate_script_fail hA hU hv hdl hexe hb]
      exact ⟨rfl, Or.inl ⟨rfl, Or.inr ⟨ul, rfl⟩⟩⟩
    | true =>
      rw [checkForUpdate_success hA hU hv hdl hexe hb]
      exact ⟨rfl, Or.inr ⟨rfl, ul, p, rfl⟩⟩

end ExecutableUpdater

namespace ExecutableUpdater

theorem append_ne_of_suffix_ne {td a b : String} (h : a ≠ b) : td ++ a ≠ td ++ b :=
  fun heq => h (string_append_left_cancel heq)

theorem metaPath_ne_payloadPath (td : String) :
    td ++ "\\version_info.json" ≠ td ++ "\\app_update.exe" :=
  append_ne_of_suffix_ne (by decide)

theorem attemptsPayload_fetch (td : String) (env : Env) (url : String) :
    attemptsPayload td (fetchVersionInfo td env url).2 = false := by
  cases h : dlResult env.metaDl with
  | false =>
    simp [fetchVersionInfo_fail h, attemptsPayload, metaPath_ne_payloadPath td]
  | true =>
    simp [fetchVersionInfo_ok h, attemptsPayload, metaPath_ne_payloadPath td]

theorem producesScript_fetch (td : String) (env : Env) (url : String) :
    producesScript (fetchVersionInfo td env url).2 = false := by
  cases h : dlResult env.metaDl with
  | false => simp [fetchVersionInfo_fail h, producesScript]
  | true => simp [fetchVersionInfo_ok h, producesScript]

theorem fetch_no_payload_delete (td : String) (env : Env) (url : String) :
    Event.fileDeleted (td ++ "\\app_update.exe") ∉ (fetchVersionInfo td env url).2 := by
  cases h : dlResult env.metaDl with
  | false => simp [fetchVersionInfo_fail h]
  | true => simp [fetchVersionInfo_ok h, (metaPath_ne_payloadPath td).symm]

end ExecutableUpdater

namespace ExecutableUpdater

theorem attemptsPayload_append (td : String) (a b : List Event) :
    attemptsPayload td (a ++ b) = (attemptsPayload td a || attemptsPayload td b) := by
  simp [attemptsPayload, List.any_append]

theorem producesScript_append (a b : List Event) :
    producesScript (a ++ b) = (producesScript a || producesScript b) := by
  simp [producesScript, List.any_append]

/-! ## Claims -/

/-- C1: for a fetched metadata document carrying both required keys (with
string values), `checkForUpdate` attempts the payload download iff the
caller-supplied current version differs from the remote `AppVersion` by plain
string inequality; when they are equal it returns `false` without attempting
the payload download. -/
theorem C1_version_decision (u : Updater) (env : Env) (v rv ul : String)
    (hA : (fetchedJson u.m_tempDirectory env u.m_updateUrl).getString "AppVersion" = some rv)
    (hU : (fetchedJson u.m_tempDirectory env u.m_updateUrl).getString "UpdateLink" = some ul) :
    (attemptsPayload u.m_tempDirectory (checkForUpdate u env v).events = true ↔ v ≠ rv) ∧
    (v = rv → (checkForUpdate u env v).outcome = Outcome.ret false ∧
      attemptsPayload u.m_tempDirectory (checkForUpdate u env v).events = false) := by
  have hup : ∀ hv : v = rv,
      checkForUpdate u env v =
        ⟨{ u with m_currentVersion := v }, Outcome.ret false,
         (fetchVersionInfo u.m_tempDirectory env u.m_updateUrl).2⟩ :=
    fun hv => checkForUpdate_upToDate hA hU hv
  constructor
  · constructor
    · intro hatt hv
      rw [hup hv] at hatt
      rw [attemptsPayload_fetch] at hatt
      exact Bool.false_ne_true hatt
    · intro hv
      cases hdl : dlResult env.payloadDl with
      | false =>
        rw [checkForUpdate_dl_fail hA hU hv hdl]
        simp [attemptsPayload_append, attemptsPayload]
      | true =>
        cases hexe : env.exePath with
        | none =>
          rw [checkForUpdate_exe_fail hA hU hv hdl hexe]
          simp [attemptsPayload_append, attemptsPayload]
        | some p =>
          cases hb : env.batchOpenOk with
          | false =>
            rw [checkForUpdate_script_fail hA hU hv hdl hexe hb]
            simp [attemptsPayload_append, attemptsPayload]
          | true =>
            rw [checkForUpdate_success hA hU hv hdl hexe hb]
            simp [attemptsPayload_append, attemptsPayload]
  · intro hv
    rw [hup hv]
    exact ⟨rfl, attemptsPayload_fetch _ _ _⟩

/-- C1 witness: with remote version 2.0 and current version 1.0 the payload
download is attempted; with current version 2.0 the call returns `false`
without attempting it. -/
theorem C1_version_decision_witness :
    attemptsPayload uX.m_tempDirectory (checkForUpdate uX envGood "1.0").events = true ∧
    ((checkForUpdate uX envGood "2.0").outcome = Outcome.ret false ∧
      attemptsPayload uX.m_tempDirectory (checkForUpdate uX envGood "2.0").events = false) :=
  ⟨(C1_version_decision uX envGood "1.0" "2.0" "http://x/a.exe" rfl rfl).1.mpr (by decide),
   (C1_version_decision uX envGood "2.0" "2.0" "http://x/a.exe" rfl rfl).2 rfl⟩

/-- C2: `checkForUpdate` never returns `true`: every run either returns
`false` or terminates the process via `ExitProcess(0)` inside
`executeUpdate`, and the same holds for the wrapper `checkForUpdates`. -/
theorem C2_never_returns_true (u : Updater) (env : Env) (v : String)
    (tenv : TopEnv) (c : String) :
    (checkForUpdate u env v).outcome ≠ Outcome.ret true ∧
    (checkForUpdates tenv v c).1 ≠ Outcome.ret true := by
  have h1 : ∀ (u' : Updater) (env' : Env) (v' : String),
      (checkForUpdate u' env' v').outcome ≠ Outcome.ret true := by
    intro u' env' v'
    rcases (checkForUpdate_shape u' env' v').2 with ⟨h, -⟩ | ⟨h, -⟩ <;> simp [h]
  refine ⟨h1 u env v, ?_⟩
  unfold checkForUpdates
  split
  · simp
  · simpa using h1 _ _ _

/-- C3: whenever the metadata step fails — the fetch fails, the parse throws
(leaving the default json), or a required key is absent — `checkForUpdate`
returns `false` without attempting the payload download; a failed fetch and a
parse exception both surface as the empty json that triggers this branch. -/
theorem C3_meta_failure (u : Updater) (env : Env) (v : String) :
    ((fetchedJson u.m_tempDirectory env u.m_updateUrl).isEmpty = true ∨
     (fetchedJson u.m_tempDirectory env u.m_updateUrl).contains "AppVersion" = false ∨
     (fetchedJson u.m_tempDirectory env u.m_updateUrl).contains "UpdateLink" = false →
       (checkForUpdate u env v).outcome = Outcome.ret false ∧
       attemptsPayload u.m_tempDirectory (checkForUpdate u env v).events = false) ∧
    (dlResult env.metaDl = false →
       (fetchedJson u.m_tempDirectory env u.m_updateUrl).isEmpty = true) ∧
    (env.metaParse = none →
       (fetchedJson u.m_tempDirectory env u.m_updateUrl).isEmpty = true) := by
  refine ⟨?_, ?_, ?_⟩
  · intro h
    rw [checkForUpdate_guard_fail h]
    exact ⟨rfl, attemptsPayload_fetch _ _ _⟩
  · intro h
    simp [fetchedJson, fetchVersionInfo_fail h, Json.empty, Json.isEmpty]
  · intro h
    cases hdl : dlResult env.metaDl with
    | false => simp [fetchedJson, fetchVersionInfo_fail hdl, Json.empty, Json.isEmpty]
    | true => simp [fetchedJson, fetchVersionInfo_ok hdl, h, Json.empty, Json.isEmpty]

/-- C3 witness: with a failing metadata download the check returns `false`
and never attempts the payload download. -/
theorem C3_meta_failure_witness :
    (checkForUpdate uX envMetaFail "1.0").outcome = Outcome.ret false ∧
    attemptsPayload uX.m_tempDirectory (checkForUpdate uX envMetaFail "1.0").events = false :=
  (C3_meta_failure uX envMetaFail "1.0").1 (Or.inl rfl)

/-- C4: when the metadata fetch succeeds with both keys and the versions
differ, but the payload download fails, `checkForUpdate` returns `false` and
no replacement script is produced. -/
theorem C4_payload_failure (u : Updater) (env : Env) (v rv ul : String)
    (hA : (fetchedJson u.m_tempDirectory env u.m_updateUrl).getString "AppVersion" = some rv)
    (hU : (fetchedJson u.m_tempDirectory env u.m_updateUrl).getString "UpdateLink" = some ul)
    (hneq : v ≠ rv)
    (hdl : dlResult env.payloadDl = false) :
    (checkForUpdate u env v).outcome = Outcome.ret false ∧
    producesScript (checkForUpdate u env v).events = false := by
  rw [checkForUpdate_dl_fail hA hU hneq hdl]
  refine ⟨rfl, ?_⟩
  rw [producesScript_append, producesScript_fetch]
  simp [producesScript]

/-- C4 witness: metadata advertises 2.0 against current 1.0, the payload
download fails, the check returns `false` and produces no script. -/
theorem C4_payload_failure_witness :
    (checkForUpdate uX envDlFail "1.0").outcome = Outcome.ret false ∧
    producesScript (checkForUpdate uX envDlFail "1.0").events = false :=
  C4_payload_failure uX envDlFail "1.0" "2.0" "http://x/a.exe" rfl rfl (by decide) rfl

end ExecutableUpdater

namespace ExecutableUpdater

/-- C5 counterexample: a run in which the payload download succeeds but the
batch file cannot be created — no replacement script is produced and the call
returns `false`, so a successful download alone does not guarantee a script. -/
theorem C5_counterexample :
    dlResult envNoScript.payloadDl = true ∧
    producesScript (checkForUpdate uX envNoScript "1.0").events = false ∧
    (checkForUpdate uX envNoScript "1.0").outcome = Outcome.ret false := by decide

/-- C5 (amended): when the payload download succeeds, the executable-path
lookup succeeds and the script file can be created, a replacement script is
produced at `<tempdir>\updater_script.bat` whose content is exactly the batch
text over the downloaded artifact's path and the current executable's path,
and that text (a) waits, (b) overwrites the executable with the artifact,
(c) relaunches the executable, (d) deletes the artifact and itself; the
process then exits. -/
theorem C5_script_contract (u : Updater) (env : Env) (v rv ul p : String)
    (hA : (fetchedJson u.m_tempDirectory env u.m_updateUrl).getString "AppVersion" = some rv)
    (hU : (fetchedJson u.m_tempDirectory env u.m_updateUrl).getString "UpdateLink" = some ul)
    (hneq : v ≠ rv)
    (hdl : dlResult env.payloadDl = true)
    (hexe : env.exePath = some p)
    (hbatch : env.batchOpenOk = true) :
    (checkForUpdate u env v).outcome = Outcome.exit0 ∧
    Event.scriptWritten (u.m_tempDirectory ++ "\\updater_script.bat")
        (batchScript (u.m_tempDirectory ++ "\\app_update.exe") p) ∈
      (checkForUpdate u env v).events ∧
    "timeout /t 3 /nobreak >nul" ∈
      batchScriptLines (u.m_tempDirectory ++ "\\app_update.exe") p ∧
    "copy /Y \"" ++ (u.m_tempDirectory ++ "\\app_update.exe") ++ "\" \"" ++ p ++ "\" >nul" ∈
      batchScriptLines (u.m_tempDirectory ++ "\\app_update.exe") p ∧
    "start \"\" \"" ++ p ++ "\"" ∈
      batchScriptLines (u.m_tempDirectory ++ "\\app_update.exe") p ∧
    "del \"" ++ (u.m_tempDirectory ++ "\\app_update.exe") ++ "\" >nul 2>&1" ∈
      batchScriptLines (u.m_tempDirectory ++ "\\app_update.exe") p ∧
    "del \"%~f0\" >nul 2>&1" ∈
      batchScriptLines (u.m_tempDirectory ++ "\\app_update.exe") p := by
  rw [checkForUpdate_success hA hU hneq hdl hexe hbatch]
  refine ⟨rfl, ?_, ?_, ?_, ?_, ?_, ?_⟩
  · simp
  · simp [batchScriptLines]
  · simp [batchScriptLines]
  · simp [batchScriptLines]
  · simp [batchScriptLines]
  · simp [batchScriptLines]

/-- C5 witness: in the all-success environment the process exits via the
update-execution step. -/
theorem C5_script_contract_witness :
    (checkForUpdate uX envGood "1.0").outcome = Outcome.exit0 :=
  (C5_script_contract uX envGood "1.0" "2.0" "http://x/a.exe" "C:\\app.exe"
    rfl rfl (by decide) rfl rfl rfl).1

/-- C6 counterexample: a download whose body is empty (the first
`InternetReadFile` reports zero bytes) is treated as a success — the update
is applied (the process exits and a script is produced) instead of the check
failing. -/
theorem C6_counterexample :
    dlBytes envZero.payloadDl.reads = 0 ∧
    dlResult envZero.payloadDl = true ∧
    (checkForUpdate uX envZero "1.0").outcome = Outcome.exit0 ∧
    producesScript (checkForUpdate uX envZero "1.0").events = true := by decide

/-- C6 (amended): `checkForUpdate` returns `false` when the payload download
fails, but a download producing zero bytes counts as a success (the loop
never runs and the success flag stays set), so it leads to the update being
applied. -/
theorem C6_zero_byte_download (u : Updater) (env : Env) (v rv ul p : String)
    (hA : (fetchedJson u.m_tempDirectory env u.m_updateUrl).getString "AppVersion" = some rv)
    (hU : (fetchedJson u.m_tempDirectory env u.m_updateUrl).getString "UpdateLink" = some ul)
    (hneq : v ≠ rv) :
    (dlResult env.payloadDl = false → (checkForUpdate u env v).outcome = Outcome.ret false) ∧
    (env.payloadDl = ⟨true, true, true, []⟩ → env.exePath = some p → env.batchOpenOk = true →
       dlBytes env.payloadDl.reads = 0 ∧
       (checkForUpdate u env v).outcome = Outcome.exit0) := by
  constructor
  · intro hdl
    rw [checkForUpdate_dl_fail hA hU hneq hdl]
  · intro hp hexe hb
    have hdl : dlResult env.payloadDl = true := by rw [hp]; rfl
    rw [checkForUpdate_success hA hU hneq hdl hexe hb]
    exact ⟨by rw [hp]; rfl, rfl⟩

/-- C6 witness: a failing download yields `false`; a zero-byte download
yields a process exit. -/
theorem C6_zero_byte_download_witness :
    (checkForUpdate uX envDlFail "1.0").outcome = Outcome.ret false ∧
    (dlBytes envZero.payloadDl.reads = 0 ∧
     (checkForUpdate uX envZero "1.0").outcome = Outcome.exit0) :=
  ⟨(C6_zero_byte_download uX envDlFail "1.0" "2.0" "http://x/a.exe" "C:\\app.exe"
      rfl rfl (by decide)).1 rfl,
   (C6_zero_byte_download uX envZero "1.0" "2.0" "http://x/a.exe" "C:\\app.exe"
      rfl rfl (by decide)).2 rfl rfl rfl⟩

/-- C7: the temporary metadata file is deleted after the parse attempt
whenever its download succeeded (whatever the parse outcome); the program
itself never deletes the downloaded binary in any branch of
`checkForUpdate` — its deletion, like the script's own, exists only as `del`
commands inside the replacement script. -/
theorem C7_cleanup (u : Updater) (env : Env) (v p : String) :
    (dlResult env.metaDl = true →
       Event.fileDeleted (u.m_tempDirectory ++ "\\version_info.json") ∈
         (fetchVersionInfo u.m_tempDirectory env u.m_updateUrl).2) ∧
    Event.fileDeleted (u.m_tempDirectory ++ "\\app_update.exe") ∉
      (checkForUpdate u env v).events ∧
    "del \"" ++ (u.m_tempDirectory ++ "\\app_update.exe") ++ "\" >nul 2>&1" ∈
      batchScriptLines (u.m_tempDirectory ++ "\\app_update.exe") p ∧
    "del \"%~f0\" >nul 2>&1" ∈
      batchScriptLines (u.m_tempDirectory ++ "\\app_update.exe") p := by
  refine ⟨?_, ?_, ?_, ?_⟩
  · intro h
    simp [fetchVersionInfo_ok h]
  · have hf := fetch_no_payload_delete u.m_tempDirectory env u.m_updateUrl
    rcases (checkForUpdate_shape u env v).2 with ⟨-, h | ⟨ul, h⟩⟩ | ⟨-, ul, q, h⟩ <;>
      rw [h] <;> simp_all
  · simp [batchScriptLines]
  · simp [batchScriptLines]

/-- C7 witness: with a successful metadata download the temporary metadata
file is deleted. -/
theorem C7_cleanup_witness :
    Event.fileDeleted (uX.m_tempDirectory ++ "\\version_info.json") ∈
      (fetchVersionInfo uX.m_tempDirectory envGood uX.m_updateUrl).2 :=
  (C7_cleanup uX envGood "1.0" "C:\\app.exe").1 rfl

/-- The event trace of any `checkForUpdate` run starts with the metadata
download attempt, against the configured URL. -/
theorem checkForUpdate_events_head (u : Updater) (env : Env) (v : String) :
    ∃ rest, (checkForUpdate u env v).events =
      Event.downloadAttempt u.m_updateUrl (u.m_tempDirectory ++ "\\version_info.json") :: rest := by
  have hfetch : ∃ r2, (fetchVersionInfo u.m_tempDirectory env u.m_updateUrl).2 =
      Event.downloadAttempt u.m_updateUrl (u.m_tempDirectory ++ "\\version_info.json") :: r2 := by
    cases h : dlResult env.metaDl with
    | false => exact ⟨[], by simp [fetchVersionInfo_fail h]⟩
    | true =>
      exact ⟨[Event.fileDeleted (u.m_tempDirectory ++ "\\version_info.json")],
             by simp [fetchVersionInfo_ok h]⟩
  rcases hfetch with ⟨r2, hr2⟩
  rcases (checkForUpdate_shape u env v).2 with ⟨-, h | ⟨ul, h⟩⟩ | ⟨-, ul, p, h⟩ <;> rw [h, hr2]
  · exact ⟨r2, rfl⟩
  · exact ⟨r2 ++ [Event.downloadAttempt ul (u.m_tempDirectory ++ "\\app_update.exe")], by simp⟩
  · exact ⟨r2 ++ [Event.downloadAttempt ul (u.m_tempDirectory ++ "\\app_update.exe")] ++
      [Event.scriptWritten (u.m_tempDirectory ++ "\\updater_script.bat")
         (batchScript (u.m_tempDirectory ++ "\\app_update.exe") p),
       Event.scriptLaunched (u.m_tempDirectory ++ "\\updater_script.bat")], by simp⟩

end ExecutableUpdater

namespace ExecutableUpdater

/-- C8 counterexample: calling the public entry point with a nonempty
`configUrl` fetches that URL, not the build-time constant — the optional
parameter is a runtime override. -/
theorem C8_counterexample :
    (checkForUpdates tenvX "1.0" "http://other/v.json").2 =
      [Event.downloadAttempt "http://other/v.json" "C:\\Tmp\\version_info.json"] ∧
    "http://other/v.json" ≠ AUTO_UPDATER_CONFIG_URL := by decide

/-- C8 (amended): when no config URL is supplied (empty `configUrl`, as the
legacy wrapper always does), the URL fetched is the compile-time constant
`AUTO_UPDATER_CONFIG_URL`; a nonempty `configUrl` argument overrides it at
runtime, so the constant governs only the default calls. -/
theorem C8_default_url (tenv : TopEnv) (v tp c : String)
    (h : tenv.tempPath = some tp) (hc : (c == "") = false) :
    (∃ rest, (checkForUpdates tenv v "").2 =
       Event.downloadAttempt AUTO_UPDATER_CONFIG_URL
         (mkTempDirectory tp ++ "\\version_info.json") :: rest) ∧
    (∃ rest, (checkForUpdates tenv v c).2 =
       Event.downloadAttempt c
         (mkTempDirectory tp ++ "\\version_info.json") :: rest) ∧
    (Updated tenv v).2 = (checkForUpdates tenv v "").2 := by
  refine ⟨?_, ?_, rfl⟩
  · unfold checkForUpdates
    rw [h]
    simpa [mkUpdater] using
      checkForUpdate_events_head (mkUpdater AUTO_UPDATER_CONFIG_URL tp) tenv.env v
  · unfold checkForUpdates
    rw [h]
    simpa [mkUpdater, hc] using
      checkForUpdate_events_head (mkUpdater c tp) tenv.env v

/-- C8 witness: with the default empty config URL the fetch targets the
build-time constant. -/
theorem C8_default_url_witness :
    ∃ rest, (checkForUpdates tenvX "1.0" "").2 =
      Event.downloadAttempt AUTO_UPDATER_CONFIG_URL
        (mkTempDirectory "C:\\Tmp\\" ++ "\\version_info.json") :: rest :=
  (C8_default_url tenvX "1.0" "C:\\Tmp\\" "http://other/v.json" rfl rfl).1

/-- C9: the legacy wrapper `Updated(version)` delegates to
`checkForUpdates(version)` with the default (empty) config URL, so the two
public entry points agree on every version string and in every environment. -/
theorem C9_legacy_equiv (tenv : TopEnv) (v : String) :
    Updated tenv v = checkForUpdates tenv v "" := rfl

/-- C10: `checkForUpdate` only writes the stored current-version field: after
any call, `m_updateUrl` and `m_tempDirectory` equal their values before the
call, while `m_currentVersion` holds the argument. -/
theorem C10_field_frame (u : Updater) (env : Env) (v : String) :
    (checkForUpdate u env v).updater.m_updateUrl = u.m_updateUrl ∧
    (checkForUpdate u env v).updater.m_tempDirectory = u.m_tempDirectory ∧
    (checkForUpdate u env v).updater.m_currentVersion = v := by
  rw [(checkForUpdate_shape u env v).1]
  exact ⟨rfl, rfl, rfl⟩

end ExecutableUpdater
